import Mathlib

/-!
Verification of the calendar normalization and conflict-detection core
(lib/utils/calendar-transforms.ts, lib/types/calendar.ts).

The TypeScript source is embedded shallowly:
* raw DB row types and the unified CalendarEvent become Lean structures;
* nullable fields become Option; JS numbers in this core are non-negative
  integers and become Nat;
* the regex-based time parsing (toMinutes, localToHHMM) is implemented
  character by character with the same scan-left, first-match semantics
  as the JS regexes used in the source;
* Intl.DateTimeFormat timezone conversion (America/New_York) is an
  environment facility, not repository code; it is modelled by a
  parameter (TZEnv) supplying the Eastern local hour/minute and local
  date for a UTC instant, composed with the exact en-US hour12 textual
  formatting the source relies on.
-/

-- ── Data model (lib/types/calendar.ts) ────────────────────────────

inductive CalendarEventSource where
  | courtreserve
  | courtreserve_event
  | tripleseat_event
  | tripleseat_lead
deriving DecidableEq, Repr

inductive CalendarEventStatus where
  | confirmed
  | tentative
  | prospect
  | cancelled
deriving DecidableEq, Repr

structure CalendarEvent where
  id : String
  originalRecordId : String
  source : CalendarEventSource
  courtMappingIds : List String
  courtNumber : Option Nat
  isMultiCourt : Bool
  title : String
  category : Option String
  status : CalendarEventStatus
  hasConflict : Bool
  date : String
  startTime : String
  endTime : String
  startMinutes : Nat
  endMinutes : Nat
  durationMinutes : Nat
  memberName : Option String
  memberEmail : Option String
  instructorName : Option String
  guestCount : Option Nat
  roomIds : List Nat
  contactName : Option String
  contactEmail : Option String
  eventType : Option String
deriving DecidableEq, Repr

structure CourtMapping where
  id : String
  location_id : String
  court_number : Nat
  court_name : String
  courtreserve_court_id : Option Nat
  tripleseat_room_id : Option Nat
  is_active : Bool
deriving DecidableEq, Repr

structure CRReservation where
  id : String
  location_id : String
  courtreserve_reservation_id : String
  court_id : Option Nat
  court_mapping_id : Option String
  category : Option String
  title : Option String
  reservation_date : Option String
  start_time : Option String
  end_time : Option String
  member_name : Option String
  member_email : Option String
  instructor_name : Option String
  status : Option String
deriving DecidableEq, Repr

structure CREvent where
  id : String
  location_id : String
  courtreserve_event_id : Nat
  courtreserve_reservation_id : Option Nat
  event_name : Option String
  event_category_id : Option Nat
  event_category_name : Option String
  start_datetime : Option String
  end_datetime : Option String
  court_ids : List Nat
  court_mapping_ids : List String
  max_registrants : Option Nat
  registered_count : Option Nat
  waitlist_count : Option Nat
  is_canceled : Bool
  is_public : Bool
  public_event_url : Option String
deriving DecidableEq, Repr

structure TSEvent where
  id : String
  location_id : String
  tripleseat_event_id : Nat
  event_name : Option String
  event_type : Option String
  status : Option String
  contact_name : Option String
  contact_email : Option String
  event_date : Option String
  event_start : Option String
  event_end : Option String
  guest_count : Option Nat
  room_ids : List Nat
deriving DecidableEq, Repr

structure TSLead where
  id : String
  location_id : String
  tripleseat_lead_id : Nat
  lead_name : Option String
  lead_type : Option String
  status : Option String
  contact_name : Option String
  desired_date : Option String
  desired_start : Option String
  desired_end : Option String
  guest_count : Option Nat
  room_ids : List Nat
deriving DecidableEq, Repr

structure CalendarFilters where
  sources : List CalendarEventSource
  statuses : List CalendarEventStatus
  courtIds : List String
deriving DecidableEq, Repr

/-- Environment model for Intl.DateTimeFormat with
timeZone America/New_York.  hm gives the Eastern local (hour, minute)
of a UTC instant string; dateStr gives the Eastern local YYYY-MM-DD
date (the en-CA formatting used by toEasternDate). -/
structure TZEnv where
  hm : String → Nat × Nat
  dateStr : String → String

-- ── Character / digit helpers ─────────────────────────────────────

/-- Numeric value of a decimal digit run (the value parseInt returns on a
captured all-digit group). -/
def digitsVal (l : List Char) : Nat :=
  l.foldl (fun acc c => acc * 10 + (c.toNat - 48)) 0

/-- JS Number(s) restricted to the inputs this core feeds it: a non-empty
all-digit string parses to its value.  (On other strings JS yields NaN;
those branches are never reached by the program and the model returns 0.) -/
def jsNat : Option (List Char) → Nat
  | none => 0
  | some l => if l ≠ [] ∧ l.all Char.isDigit then digitsVal l else 0

/-- Whitespace as matched by the JS regex class backslash-s, restricted to
the characters appearing in this core (plain space). -/
def isJsSpace (c : Char) : Bool := c = ' '

/-- String.prototype.split on the colon separator: the pieces between
colons, in order, empty pieces kept. -/
def splitCols : List Char → List (List Char)
  | [] => [[]]
  | ':' :: t => [] :: splitCols t
  | c :: t =>
    match splitCols t with
    | [] => [[c]]
    | p :: ps => (c :: p) :: ps

/-- JS toLowerCase restricted to ASCII (the vocabulary this core maps). -/
def strToLower (s : String) : String := String.mk (s.data.map Char.toLower)

/-- JS toUpperCase restricted to ASCII (the vocabulary this core maps). -/
def strToUpper (s : String) : String := String.mk (s.data.map Char.toUpper)

-- ── toMinutes (calendar-transforms.ts lines 56-70) ────────────────

/-- One attempt of the regex (\d+):(\d+)\s*(AM|PM)/i at the head of the
list: a maximal non-empty digit run, a colon, a maximal non-empty digit
run, optional whitespace, then AM or PM case-insensitively.  Returns
(hour digits value, minute digits value, isPM). -/
def ampmAt (l : List Char) : Option (Nat × Nat × Bool) :=
  let p1 := l.span Char.isDigit
  match p1.1 with
  | [] => none
  | _ :: _ =>
    match p1.2 with
    | ':' :: r2 =>
      let p2 := r2.span Char.isDigit
      match p2.1 with
      | [] => none
      | _ :: _ =>
        match p2.2.dropWhile isJsSpace with
        | a :: m :: _ =>
          if (a = 'A' ∨ a = 'a' ∨ a = 'P' ∨ a = 'p') ∧ (m = 'M' ∨ m = 'm')
          then some (digitsVal p1.1, digitsVal p2.1, a = 'P' ∨ a = 'p')
          else none
        | _ => none
    | _ => none

/-- Left-to-right scan for the first position where ampmAt succeeds,
as the JS regex engine does. -/
def scanAmPm : List Char → Option (Nat × Nat × Bool)
  | [] => none
  | c :: rest =>
    match ampmAt (c :: rest) with
    | some r => some r
    | none => scanAmPm rest

/-- Converts "HH:MM" to minutes from midnight.  Handles the AM/PM format
("10:00 AM", "2:00 PM") first, falling back to 24h "HH:MM"
(split on colon, Number on the first two pieces). -/
def toMinutes (timeStr : String) : Nat :=
  match scanAmPm timeStr.data with
  | some (hd, md, isPM) =>
    let h1 := if ¬ isPM ∧ hd = 12 then 0 else hd
    let h2 := if isPM ∧ h1 ≠ 12 then h1 + 12 else h1
    h2 * 60 + md
  | none =>
    let parts := splitCols timeStr.data
    jsNat parts[0]? * 60 + jsNat parts[1]?

-- ── localToHHMM (calendar-transforms.ts lines 78-89) ──────────────

/-- Left-to-right scan for the first match of (\d{2}):(\d{2}): two digits,
a colon, two digits.  Returns the parsed hour and the two minute digit
characters (the source keeps the minute capture as a string). -/
def scanHHMM : List Char → Option (Nat × Char × Char)
  | c0 :: c1 :: ':' :: c3 :: c4 :: rest =>
    if c0.isDigit ∧ c1.isDigit ∧ c3.isDigit ∧ c4.isDigit
    then some (digitsVal [c0, c1], c3, c4)
    else scanHHMM (c1 :: ':' :: c3 :: c4 :: rest)
  | _ :: rest => scanHHMM rest
  | [] => none

/-- Extracts the clock digits from a local datetime string and formats
them as a 12-hour AM/PM string; defaults to "12:00 AM" when no
HH:MM pair is found. -/
def localToHHMM (localString : String) : String :=
  match scanHHMM localString.data with
  | none => "12:00 AM"
  | some (h, m1, m2) =>
    let ms := String.mk [m1, m2]
    if h = 0 then "12:" ++ ms ++ " AM"
    else if h < 12 then Nat.repr h ++ ":" ++ ms ++ " AM"
    else if h = 12 then "12:" ++ ms ++ " PM"
    else Nat.repr (h - 12) ++ ":" ++ ms ++ " PM"

-- ── Intl formatting model (toEasternHHMM / toEasternDate) ─────────

/-- Two-digit zero-padded decimal (2-digit minute formatting). -/
def pad2 (n : Nat) : String :=
  if n < 10 then "0" ++ Nat.repr n else Nat.repr n

/-- en-US, hour12, hour numeric, minute 2-digit rendering of an Eastern
local wall-clock (hour, minute). -/
def ampmIntlFormat : Nat × Nat → String
  | (h, m) =>
    let ms := pad2 m
    if h = 0 then "12:" ++ ms ++ " AM"
    else if h < 12 then Nat.repr h ++ ":" ++ ms ++ " AM"
    else if h = 12 then "12:" ++ ms ++ " PM"
    else Nat.repr (h - 12) ++ ":" ++ ms ++ " PM"

/-- Converts a UTC ISO string to Eastern local "HH:MM" via the timezone
environment (Intl.DateTimeFormat, America/New_York, hour12). -/
def toEasternHHMM (env : TZEnv) (utcString : String) : String :=
  ampmIntlFormat (env.hm utcString)

/-- Converts a UTC ISO string to the Eastern local "YYYY-MM-DD" date via
the timezone environment (toLocaleDateString en-CA). -/
def toEasternDate (env : TZEnv) (utcString : String) : String :=
  env.dateStr utcString

-- ── Status mapping (calendar-transforms.ts lines 93-108) ──────────

/-- beginsWith hay needle: needle is an initial segment of hay. -/
def beginsWith : List Char → List Char → Bool
  | _, [] => true
  | [], _ :: _ => false
  | c :: cs, d :: ds => c = d && beginsWith cs ds

/-- hasSubstr hay needle: needle occurs contiguously in hay
(String.prototype.includes). -/
def hasSubstr : List Char → List Char → Bool
  | [], needle => beginsWith [] needle
  | c :: t, needle => beginsWith (c :: t) needle || hasSubstr t needle

def mapCRStatus (raw : Option String) : CalendarEventStatus :=
  match raw with
  | none => .confirmed
  | some s =>
    if s = "" then .confirmed
    else if hasSubstr (strToLower s).data "cancel".data then .cancelled
    else .confirmed

def mapTSEventStatus (raw : Option String) : CalendarEventStatus :=
  match raw with
  | none => .prospect
  | some s =>
    let u := strToUpper s
    if u = "DEFINITE" then .confirmed
    else if u = "TENTATIVE" then .tentative
    else if u = "PROSPECT" then .prospect
    else if u = "CANCELLED" ∨ u = "LOST" then .cancelled
    else .prospect

-- ── Conflict detection (calendar-transforms.ts lines 122-152) ─────

/-- Clears the conflict flag; the first step of detectConflicts
(events.map with hasConflict set to false). -/
def clearFlag (e : CalendarEvent) : CalendarEvent :=
  { e with hasConflict := false }

/-- The pairwise test of the detector loop body: both events on the same
date, neither a tripleseat lead, neither with prospect status, sharing a
court mapping id, and overlapping as half-open intervals. -/
def conflictPair (a b : CalendarEvent) : Bool :=
  decide (a.date = b.date)
  && !(decide (a.source = .tripleseat_lead) || decide (b.source = .tripleseat_lead))
  && !(decide (a.status = .prospect) || decide (b.status = .prospect))
  && a.courtMappingIds.any (fun c => decide (c ∈ b.courtMappingIds))
  && (decide (a.startMinutes < b.endMinutes) && decide (a.endMinutes > b.startMinutes))

/-- result[i].hasConflict = true (in-place flag write of the loop body). -/
def setFlagAt : List CalendarEvent → Nat → List CalendarEvent
  | [], _ => []
  | e :: es, 0 => { e with hasConflict := true } :: es
  | e :: es, n + 1 => e :: setFlagAt es n

/-- One iteration of the inner loop body for indices (i, j): read the
current entries, and when conflictPair holds set both flags. -/
def detectStep (res : List CalendarEvent) (i j : Nat) : List CalendarEvent :=
  match res[i]?, res[j]? with
  | some a, some b =>
    if conflictPair a b then setFlagAt (setFlagAt res i) j else res
  | _, _ => res

/-- The index pairs (i, j) with i < j < n, visited in the order of the
two nested for loops (i ascending, then j from i+1 ascending). -/
def pairList (n : Nat) : List (Nat × Nat) :=
  (List.range n).flatMap (fun i => (List.range' (i + 1) (n - (i + 1))).map (fun j => (i, j)))

/-- Marks events hasConflict = true when two events on the same court
overlap in time on the same date, excluding ghost leads (tripleseat_lead
source or prospect status).  Flags are recomputed from scratch. -/
def detectConflicts (events : List CalendarEvent) : List CalendarEvent :=
  let res := events.map clearFlag
  (pairList res.length).foldl (fun acc p => detectStep acc p.1 p.2) res

-- ── CourtReserve reservation transformer (lines 156-202) ──────────

def transformCRReservation (r : CRReservation) (courtMappings : List CourtMapping) :
    Option CalendarEvent :=
  match r.start_time, r.end_time, r.reservation_date with
  | some st, some et, some rd =>
    if st = "" ∨ et = "" ∨ rd = "" then none
    else
      let startTime := localToHHMM st
      let endTime := localToHHMM et
      let startMinutes := toMinutes startTime
      let endMinutes := toMinutes endTime
      if endMinutes ≤ startMinutes then none
      else
        let mapping : Option CourtMapping :=
          match r.court_mapping_id with
          | some cmid =>
            if cmid = "" then none
            else courtMappings.find? (fun m => decide (m.id = cmid))
          | none => none
        let courtMappingIds := match mapping with
          | some m => [m.id]
          | none => []
        some {
          id := "cr-" ++ r.courtreserve_reservation_id
          originalRecordId := r.id
          source := .courtreserve
          courtMappingIds := courtMappingIds
          courtNumber := mapping.map (fun m => m.court_number)
          isMultiCourt := false
          title := (r.title.orElse (fun _ => r.category)).getD "Reservation"
          category := r.category
          status := mapCRStatus r.status
          hasConflict := false
          date := rd
          startTime := startTime
          endTime := endTime
          startMinutes := startMinutes
          endMinutes := endMinutes
          durationMinutes := endMinutes - startMinutes
          memberName := r.member_name
          memberEmail := r.member_email
          instructorName := r.instructor_name
          guestCount := none
          roomIds := []
          contactName := none
          contactEmail := none
          eventType := none }
  | _, _, _ => none

-- ── CourtReserve program event transformer (lines 206-260) ────────

/-- .replace with the regex trailing [+-]dd:dd anchored at the end:
drops a trailing numeric offset when present. -/
def stripOffsetSuffix (s : String) : String :=
  match s.data.reverse with
  | d4 :: d3 :: ':' :: d2 :: d1 :: sign :: rest =>
    if (sign = '+' ∨ sign = '-') ∧ d1.isDigit ∧ d2.isDigit ∧ d3.isDigit ∧ d4.isDigit
    then String.mk rest.reverse
    else s
  | _ => s

/-- .replace of the single first occurrence of the character Z. -/
def removeFirstZ : List Char → List Char
  | [] => []
  | 'Z' :: t => t
  | c :: t => c :: removeFirstZ t

/-- Strip TZ suffix before parsing: the clock values are Eastern local
although stored with a spurious UTC marker. -/
def stripTZ (s : String) : String :=
  String.mk (removeFirstZ (stripOffsetSuffix s).data)

def transformCREvent (e : CREvent) (courtMappings : List CourtMapping) :
    Option CalendarEvent :=
  match e.start_datetime, e.end_datetime with
  | some sd, some ed =>
    if sd = "" ∨ ed = "" then none
    else if e.is_canceled then none
    else
      let localStart := stripTZ sd
      let localEnd := stripTZ ed
      let startTime := localToHHMM localStart
      let endTime := localToHHMM localEnd
      let startMinutes := toMinutes startTime
      let endMinutes := toMinutes endTime
      if endMinutes ≤ startMinutes then none
      else
        let date := String.mk (localStart.data.takeWhile (fun c => decide (c ≠ 'T')))
        let courtMappingIds := e.court_mapping_ids
        let firstMapping : Option CourtMapping :=
          match courtMappingIds with
          | [] => none
          | c0 :: _ => courtMappings.find? (fun m => decide (m.id = c0))
        some {
          id := "cr-event-" ++ Nat.repr e.courtreserve_event_id ++ "-" ++ localStart
          originalRecordId := e.id
          source := .courtreserve_event
          courtMappingIds := courtMappingIds
          courtNumber := firstMapping.map (fun m => m.court_number)
          isMultiCourt := decide (courtMappingIds.length > 1)
          title := (e.event_name.orElse (fun _ => e.event_category_name)).getD "Event"
          category := e.event_category_name
          status := .confirmed
          hasConflict := false
          date := date
          startTime := startTime
          endTime := endTime
          startMinutes := startMinutes
          endMinutes := endMinutes
          durationMinutes := endMinutes - startMinutes
          memberName := none
          memberEmail := none
          instructorName := none
          guestCount := e.registered_count
          roomIds := []
          contactName := none
          contactEmail := none
          eventType := e.event_category_name }
  | _, _ => none

-- ── Tripleseat event transformer (lines 264-312) ──────────────────

def transformTSEvent (env : TZEnv) (e : TSEvent) (courtMappings : List CourtMapping) :
    Option CalendarEvent :=
  match e.event_start, e.event_end with
  | some es0, some ee0 =>
    if es0 = "" ∨ ee0 = "" then none
    else
      let startTime := toEasternHHMM env es0
      let endTime := toEasternHHMM env ee0
      let startMinutes := toMinutes startTime
      let endMinutes := toMinutes endTime
      if endMinutes ≤ startMinutes then none
      else
        let date := match e.event_date with
          | some d => d
          | none => toEasternDate env es0
        let mappings := e.room_ids.filterMap
          (fun roomId => courtMappings.find? (fun m => decide (m.tripleseat_room_id = some roomId)))
        let courtMappingIds := mappings.map (fun m => m.id)
        some {
          id := "ts-event-" ++ Nat.repr e.tripleseat_event_id
          originalRecordId := e.id
          source := .tripleseat_event
          courtMappingIds := courtMappingIds
          courtNumber := match mappings with
            | [m] => some m.court_number
            | _ => none
          isMultiCourt := decide (courtMappingIds.length > 1)
          title := e.event_name.getD "Event"
          category := e.event_type
          status := mapTSEventStatus e.status
          hasConflict := false
          date := date
          startTime := startTime
          endTime := endTime
          startMinutes := startMinutes
          endMinutes := endMinutes
          durationMinutes := endMinutes - startMinutes
          memberName := none
          memberEmail := none
          instructorName := none
          guestCount := e.guest_count
          roomIds := e.room_ids
          contactName := e.contact_name
          contactEmail := e.contact_email
          eventType := e.event_type }
  | _, _ => none

-- ── Tripleseat lead transformer (lines 316-364) ───────────────────

def transformTSLead (env : TZEnv) (l : TSLead) (courtMappings : List CourtMapping) :
    Option CalendarEvent :=
  match l.desired_start, l.desired_end with
  | some ds, some de =>
    if ds = "" ∨ de = "" then none
    else
      let startTime := toEasternHHMM env ds
      let endTime := toEasternHHMM env de
      let startMinutes := toMinutes startTime
      let endMinutes := toMinutes endTime
      if endMinutes ≤ startMinutes then none
      else
        let date := match l.desired_date with
          | some d => d
          | none => toEasternDate env ds
        let mappings := l.room_ids.filterMap
          (fun roomId => courtMappings.find? (fun m => decide (m.tripleseat_room_id = some roomId)))
        let courtMappingIds := mappings.map (fun m => m.id)
        some {
          id := "ts-lead-" ++ Nat.repr l.tripleseat_lead_id
          originalRecordId := l.id
          source := .tripleseat_lead
          courtMappingIds := courtMappingIds
          courtNumber := match mappings with
            | [m] => some m.court_number
            | _ => none
          isMultiCourt := decide (courtMappingIds.length > 1)
          title := l.lead_name.getD "Lead Inquiry"
          category := l.lead_type
          status := .prospect
          hasConflict := false
          date := date
          startTime := startTime
          endTime := endTime
          startMinutes := startMinutes
          endMinutes := endMinutes
          durationMinutes := endMinutes - startMinutes
          memberName := none
          memberEmail := none
          instructorName := none
          guestCount := l.guest_count
          roomIds := l.room_ids
          contactName := l.contact_name
          contactEmail := none
          eventType := l.lead_type }
  | _, _ => none

-- ── Pipeline entry point (lines 368-407) ──────────────────────────

def buildCalendarEvents (env : TZEnv)
    (crReservations : List CRReservation) (crEventRows : List CREvent)
    (tsEvents : List TSEvent) (tsLeads : List TSLead)
    (courtMappings : List CourtMapping)
    (filters : Option CalendarFilters) : List CalendarEvent :=
  let crReservationEvents := crReservations.filterMap
    (fun r => transformCRReservation r courtMappings)
  let crProgramEvents := crEventRows.filterMap
    (fun e => transformCREvent e courtMappings)
  let tsEventsMapped := tsEvents.filterMap
    (fun e => transformTSEvent env e courtMappings)
  let tsLeadsMapped := tsLeads.filterMap
    (fun l => transformTSLead env l courtMappings)
  let all := crReservationEvents ++ crProgramEvents ++ tsEventsMapped ++ tsLeadsMapped
  let withConflicts := detectConflicts all
  match filters with
  | none => withConflicts
  | some f =>
    withConflicts.filter (fun e =>
      decide (e.source ∈ f.sources) && decide (e.status ∈ f.statuses)
      && (decide (f.courtIds.length = 0)
          || e.courtMappingIds.any (fun c => decide (c ∈ f.courtIds))))

-- ── Closed form of the detector loop ──────────────────────────────

/-- conflictPair lifted to the optional reads of detectStep. -/
def cpO : Option CalendarEvent → Option CalendarEvent → Bool
  | some a, some b => conflictPair a b
  | _, _ => false

/-- A list of events whose k-th entry carries flag value f k and is
otherwise the k-th entry of es. -/
def withFlags : List CalendarEvent → (Nat → Bool) → List CalendarEvent
  | [], _ => []
  | e :: es, f => { e with hasConflict := f 0 } :: withFlags es (fun k => f (k + 1))

theorem withFlags_congr (es : List CalendarEvent) (f g : Nat → Bool)
    (h : ∀ k, f k = g k) : withFlags es f = withFlags es g := by
  induction es generalizing f g with
  | nil => rfl
  | cons e es ih =>
    simp only [withFlags, h 0]
    exact congrArg _ (ih _ _ (fun k => h (k + 1)))

theorem withFlags_length (es : List CalendarEvent) (f : Nat → Bool) :
    (withFlags es f).length = es.length := by
  induction es generalizing f with
  | nil => rfl
  | cons e es ih => simp [withFlags, ih]

theorem map_clearFlag_eq_withFlags (es : List CalendarEvent) :
    es.map clearFlag = withFlags es (fun _ => false) := by
  induction es with
  | nil => rfl
  | cons e es ih => simp [withFlags, clearFlag, ih]

theorem withFlags_getElem? (es : List CalendarEvent) (f : Nat → Bool) (k : Nat) :
    (withFlags es f)[k]? = (es[k]?).map (fun e => { e with hasConflict := f k }) := by
  induction es generalizing f k with
  | nil => simp [withFlags]
  | cons e es ih =>
    cases k with
    | zero => simp [withFlags]
    | succ n => simp [withFlags, ih]

theorem setFlagAt_withFlags (es : List CalendarEvent) (f : Nat → Bool) (i : Nat) :
    setFlagAt (withFlags es f) i = withFlags es (fun k => f k || decide (k = i)) := by
  induction es generalizing f i with
  | nil => rfl
  | cons e es ih =>
    cases i with
    | zero =>
      simp only [withFlags, setFlagAt]
      refine congrArg₂ _ (by simp) ?_
      exact withFlags_congr _ _ _ (fun k => by simp)
    | succ n =>
      simp only [withFlags, setFlagAt, ih]
      refine congrArg₂ _ (by simp) ?_
      exact withFlags_congr _ _ _ (fun k => by simp)

theorem conflictPair_flagL (a b : CalendarEvent) (x : Bool) :
    conflictPair { a with hasConflict := x } b = conflictPair a b := rfl

theorem conflictPair_flagR (a b : CalendarEvent) (x : Bool) :
    conflictPair a { b with hasConflict := x } = conflictPair a b := rfl

theorem detectStep_withFlags (es : List CalendarEvent) (f : Nat → Bool) (i j : Nat) :
    detectStep (withFlags es f) i j =
      withFlags es (fun k =>
        f k || ((decide (k = i) || decide (k = j)) && cpO es[i]? es[j]?)) := by
  unfold detectStep
  rw [withFlags_getElem?, withFlags_getElem?]
  cases hi : es[i]? with
  | none =>
    exact withFlags_congr _ _ _ (fun k => by simp [cpO])
  | some a =>
    cases hj : es[j]? with
    | none =>
      exact withFlags_congr _ _ _ (fun k => by simp [cpO])
    | some b =>
      simp only [Option.map_some', conflictPair_flagL, conflictPair_flagR, cpO]
      by_cases hc : conflictPair a b
      · rw [if_pos hc, setFlagAt_withFlags, setFlagAt_withFlags]
        exact withFlags_congr _ _ _ (fun k => by simp [hc, Bool.or_assoc])
      · rw [if_neg hc]
        exact withFlags_congr _ _ _ (fun k => by
          simp [show conflictPair a b = false from by simpa using hc])

theorem foldl_detectStep (es : List CalendarEvent) (ps : List (Nat × Nat)) (f : Nat → Bool) :
    ps.foldl (fun acc p => detectStep acc p.1 p.2) (withFlags es f) =
      withFlags es (fun k =>
        f k || ps.any (fun p => (decide (k = p.1) || decide (k = p.2)) && cpO es[p.1]? es[p.2]?)) := by
  induction ps generalizing f with
  | nil => exact (withFlags_congr _ _ _ (fun k => by simp)).symm
  | cons p ps ih =>
    simp only [List.foldl_cons, detectStep_withFlags, ih]
    exact withFlags_congr _ _ _ (fun k => by simp [Bool.or_assoc])

/-- Flag value the detector computes for index k: some visited pair (i, j),
i < j, touches k and passes the pairwise test. -/
def flagB (es : List CalendarEvent) (k : Nat) : Bool :=
  (pairList es.length).any
    (fun p => (decide (k = p.1) || decide (k = p.2)) && cpO es[p.1]? es[p.2]?)

theorem detectConflicts_eq_withFlags (es : List CalendarEvent) :
    detectConflicts es = withFlags es (flagB es) := by
  unfold detectConflicts
  dsimp only
  rw [List.length_map, map_clearFlag_eq_withFlags, foldl_detectStep]
  exact withFlags_congr _ _ _ (fun k => by simp [flagB])

theorem mem_pairList (i j n : Nat) : (i, j) ∈ pairList n ↔ i < j ∧ j < n := by
  simp only [pairList, List.mem_flatMap, List.mem_map, List.mem_range,
    List.mem_range'_1, Prod.mk.injEq]
  constructor
  · rintro ⟨a, ha, b, ⟨hab1, hab2⟩, rfl, rfl⟩
    omega
  · rintro ⟨hij, hjn⟩
    exact ⟨i, by omega, j, ⟨by omega, by omega⟩, rfl, rfl⟩

/-- The pairwise conflict condition, spelled out as a proposition:
same date, neither event a tripleseat lead, neither with status prospect,
at least one shared court mapping id, and half-open interval overlap. -/
def ConflictCond (a b : CalendarEvent) : Prop :=
  a.date = b.date ∧
  (a.source ≠ .tripleseat_lead ∧ b.source ≠ .tripleseat_lead) ∧
  (a.status ≠ .prospect ∧ b.status ≠ .prospect) ∧
  (∃ c, c ∈ a.courtMappingIds ∧ c ∈ b.courtMappingIds) ∧
  (a.startMinutes < b.endMinutes ∧ a.endMinutes > b.startMinutes)

instance (a b : CalendarEvent) : Decidable (ConflictCond a b) := by
  unfold ConflictCond; infer_instance

theorem conflictPair_iff (a b : CalendarEvent) :
    conflictPair a b = true ↔ ConflictCond a b := by
  simp only [conflictPair, ConflictCond, Bool.and_eq_true, Bool.not_eq_true',
    Bool.or_eq_false_iff, decide_eq_false_iff_not, decide_eq_true_eq,
    List.any_eq_true]
  tauto

theorem ConflictCond.symm {a b : CalendarEvent} (h : ConflictCond a b) :
    ConflictCond b a := by
  obtain ⟨hd, ⟨hs1, hs2⟩, ⟨hp1, hp2⟩, ⟨c, hc1, hc2⟩, ho1, ho2⟩ := h
  exact ⟨hd.symm, ⟨hs2, hs1⟩, ⟨hp2, hp1⟩, ⟨c, hc2, hc1⟩, ho2, ho1⟩

theorem conflictPair_symm (a b : CalendarEvent) :
    conflictPair a b = conflictPair b a := by
  rcases h : conflictPair b a with _ | _
  · rcases h2 : conflictPair a b with _ | _
    · rfl
    · exact absurd (((conflictPair_iff b a).mpr ((conflictPair_iff a b).mp h2).symm)) (by simp [h])
  · exact (conflictPair_iff a b).mpr ((conflictPair_iff b a).mp h).symm

theorem cpO_symm (x y : Option CalendarEvent) : cpO x y = cpO y x := by
  cases x <;> cases y <;> simp [cpO, conflictPair_symm]

theorem cpO_some_left {x y : Option CalendarEvent} (h : cpO x y = true) :
    ∃ a b, x = some a ∧ y = some b ∧ conflictPair a b = true := by
  cases x with
  | none => simp [cpO] at h
  | some a =>
    cases y with
    | none => simp [cpO] at h
    | some b => exact ⟨a, b, rfl, rfl, h⟩

theorem flagB_iff (es : List CalendarEvent) (k : Nat) :
    flagB es k = true ↔ ∃ j, j ≠ k ∧ cpO es[k]? es[j]? = true := by
  unfold flagB
  rw [List.any_eq_true]
  constructor
  · rintro ⟨⟨i, j⟩, hmem, hp⟩
    rw [mem_pairList] at hmem
    simp only [Bool.and_eq_true, Bool.or_eq_true, decide_eq_true_eq] at hp
    obtain ⟨hk, hcp⟩ := hp
    rcases hk with rfl | rfl
    · exact ⟨j, by omega, hcp⟩
    · exact ⟨i, by omega, by rw [cpO_symm]; exact hcp⟩
  · rintro ⟨j, hjk, hcp⟩
    obtain ⟨a, b, ha, hb, hab⟩ := cpO_some_left hcp
    have hkl : k < es.length := (List.getElem?_eq_some.mp ha).1
    have hjl : j < es.length := (List.getElem?_eq_some.mp hb).1
    rcases Nat.lt_or_ge k j with hlt | hge
    · refine ⟨(k, j), (mem_pairList _ _ _).mpr ⟨hlt, hjl⟩, ?_⟩
      simp [hcp]
    · have hlt : j < k := by omega
      refine ⟨(j, k), (mem_pairList _ _ _).mpr ⟨hlt, hkl⟩, ?_⟩
      simp [cpO_symm es[j]? es[k]?, hcp]

/-- Pointwise description of detectConflicts: entry k of the output is
entry k of the input with its flag replaced by flagB. -/
theorem detectConflicts_getElem? (es : List CalendarEvent) (k : Nat) :
    (detectConflicts es)[k]? =
      (es[k]?).map (fun e => { e with hasConflict := flagB es k }) := by
  rw [detectConflicts_eq_withFlags, withFlags_getElem?]

theorem detectConflicts_length (es : List CalendarEvent) :
    (detectConflicts es).length = es.length := by
  rw [detectConflicts_eq_withFlags, withFlags_length]

-- ── Flagged ids as a function of the multiset of events ───────────

theorem two_indices_count {es : List CalendarEvent} {x : CalendarEvent} {i j : Nat}
    (hi : es[i]? = some x) (hj : es[j]? = some x) (hij : i ≠ j) :
    2 ≤ es.count x := by
  induction es generalizing i j with
  | nil => simp at hi
  | cons e es ih =>
    cases i with
    | zero =>
      cases j with
      | zero => omega
      | succ m =>
        simp only [List.getElem?_cons_zero, Option.some.injEq] at hi
        simp only [List.getElem?_cons_succ] at hj
        have hmem : x ∈ es := List.mem_iff_getElem?.mpr ⟨m, hj⟩
        have hpos : 0 < es.count x := List.count_pos_iff.mpr hmem
        subst hi
        rw [List.count_cons_self]
        omega
    | succ n =>
      cases j with
      | zero =>
        simp only [List.getElem?_cons_zero, Option.some.injEq] at hj
        simp only [List.getElem?_cons_succ] at hi
        have hmem : x ∈ es := List.mem_iff_getElem?.mpr ⟨n, hi⟩
        have hpos : 0 < es.count x := List.count_pos_iff.mpr hmem
        subst hj
        rw [List.count_cons_self]
        omega
      | succ m =>
        simp only [List.getElem?_cons_succ] at hi hj
        have := ih hi hj (by omega)
        rw [List.count_cons]
        omega

theorem count_two_indices {es : List CalendarEvent} {x : CalendarEvent}
    (h : 2 ≤ es.count x) :
    ∃ i j : Nat, i ≠ j ∧ es[i]? = some x ∧ es[j]? = some x := by
  induction es with
  | nil => simp at h
  | cons e es ih =>
    by_cases he : e = x
    · subst he
      rw [List.count_cons_self] at h
      by_cases h2 : 2 ≤ es.count e
      · obtain ⟨i, j, hij, hi, hj⟩ := ih h2
        refine ⟨i + 1, j + 1, by omega, ?_, ?_⟩
        · simpa using hi
        · simpa using hj
      · have h1 : 0 < es.count e := by omega
        have hmem : e ∈ es := List.count_pos_iff.mp h1
        obtain ⟨m, hm⟩ := List.mem_iff_getElem?.mp hmem
        refine ⟨0, m + 1, by omega, by simp, ?_⟩
        simpa using hm
    · have h1 : 2 ≤ es.count x := by
        rw [List.count_cons] at h
        have : ¬ ((e == x) = true) := by
          simpa using he
        simpa [this] using h
      obtain ⟨i, j, hij, hi, hj⟩ := ih h1
      refine ⟨i + 1, j + 1, by omega, ?_, ?_⟩
      · simpa using hi
      · simpa using hj

theorem exists_other_index {es : List CalendarEvent} {x : CalendarEvent}
    (h : 2 ≤ es.count x) (k : Nat) :
    ∃ j, j ≠ k ∧ es[j]? = some x := by
  obtain ⟨i, j, hij, hi, hj⟩ := count_two_indices h
  by_cases hik : i = k
  · exact ⟨j, by omega, hj⟩
  · exact ⟨i, hik, hi⟩

/-- An event value x is flagged in es exactly when some partner y of the
multiset of events (a second occurrence of x counting as a partner)
satisfies the pairwise conflict condition with x. -/
def flagWitness (es : List CalendarEvent) (x : CalendarEvent) : Prop :=
  ∃ y, ConflictCond x y ∧ ((y ≠ x ∧ y ∈ es) ∨ (y = x ∧ 2 ≤ es.count x))

theorem flagB_iff_flagWitness {es : List CalendarEvent} {k : Nat} {x : CalendarEvent}
    (hk : es[k]? = some x) :
    flagB es k = true ↔ flagWitness es x := by
  rw [flagB_iff]
  constructor
  · rintro ⟨j, hjk, hcp⟩
    obtain ⟨a, b, ha, hb, hab⟩ := cpO_some_left hcp
    rw [hk] at ha
    injection ha with ha
    subst ha
    by_cases hbx : b = x
    · subst hbx
      exact ⟨b, (conflictPair_iff _ _).mp hab,
        Or.inr ⟨rfl, two_indices_count hk hb (fun h => hjk h.symm)⟩⟩
    · exact ⟨b, (conflictPair_iff _ _).mp hab,
        Or.inl ⟨hbx, List.mem_iff_getElem?.mpr ⟨j, hb⟩⟩⟩
  · rintro ⟨y, hcond, hcase⟩
    rcases hcase with ⟨hyx, hymem⟩ | ⟨rfl, hcount⟩
    · obtain ⟨j, hj⟩ := List.mem_iff_getElem?.mp hymem
      refine ⟨j, ?_, ?_⟩
      · intro hjk
        subst hjk
        rw [hk] at hj
        exact hyx (by injection hj with h; exact h.symm)
      · rw [hk, hj]
        exact (conflictPair_iff _ _).mpr hcond
    · obtain ⟨j, hjk, hj⟩ := exists_other_index hcount k
      refine ⟨j, hjk, ?_⟩
      rw [hk, hj]
      exact (conflictPair_iff _ _).mpr hcond

/-- The ids of the events the detector flags. -/
def flaggedIds (es : List CalendarEvent) : List String :=
  (detectConflicts es).filterMap (fun e => if e.hasConflict then some e.id else none)

theorem mem_flaggedIds (es : List CalendarEvent) (idv : String) :
    idv ∈ flaggedIds es ↔ ∃ x, x ∈ es ∧ x.id = idv ∧ flagWitness es x := by
  unfold flaggedIds
  rw [List.mem_filterMap]
  constructor
  · rintro ⟨e, hmem, hsome⟩
    obtain ⟨k, hk⟩ := List.mem_iff_getElem?.mp hmem
    rw [detectConflicts_getElem?] at hk
    cases hx : es[k]? with
    | none => rw [hx] at hk; simp at hk
    | some x =>
      rw [hx] at hk
      simp only [Option.map_some', Option.some.injEq] at hk
      subst hk
      by_cases hfl : flagB es k = true
      · simp only [hfl, if_true, Option.some.injEq] at hsome
        exact ⟨x, List.mem_iff_getElem?.mpr ⟨k, hx⟩, hsome,
          (flagB_iff_flagWitness hx).mp hfl⟩
      · rw [Bool.not_eq_true] at hfl
        simp [hfl] at hsome
  · rintro ⟨x, hmem, hid, hw⟩
    obtain ⟨k, hk⟩ := List.mem_iff_getElem?.mp hmem
    have hfl : flagB es k = true := (flagB_iff_flagWitness hk).mpr hw
    refine ⟨{ x with hasConflict := flagB es k }, ?_, ?_⟩
    · refine List.mem_iff_getElem?.mpr ⟨k, ?_⟩
      rw [detectConflicts_getElem?, hk]
      rfl
    · simp [hfl, hid]

theorem flagWitness_perm {es es2 : List CalendarEvent} (hp : es.Perm es2)
    (x : CalendarEvent) : flagWitness es x ↔ flagWitness es2 x := by
  unfold flagWitness
  constructor
  · rintro ⟨y, hc, hcase⟩
    refine ⟨y, hc, ?_⟩
    rcases hcase with ⟨h1, h2⟩ | ⟨h1, h2⟩
    · exact Or.inl ⟨h1, hp.mem_iff.mp h2⟩
    · exact Or.inr ⟨h1, by rw [← hp.count_eq]; exact h2⟩
  · rintro ⟨y, hc, hcase⟩
    refine ⟨y, hc, ?_⟩
    rcases hcase with ⟨h1, h2⟩ | ⟨h1, h2⟩
    · exact Or.inl ⟨h1, hp.mem_iff.mpr h2⟩
    · exact Or.inr ⟨h1, by rw [hp.count_eq]; exact h2⟩

theorem withFlags_map_clearFlag (es : List CalendarEvent) (f : Nat → Bool) :
    (withFlags es f).map clearFlag = es.map clearFlag := by
  induction es generalizing f with
  | nil => rfl
  | cons e es ih => simp [withFlags, clearFlag, ih]

-- ── Sample events for concrete instantiations ─────────────────────

/-- A confirmed CourtReserve reservation on court-3, 13:00 to 14:00
Eastern on 2026-02-21 (the concrete scenario of the spec). -/
def baseEv : CalendarEvent :=
  { id := "e", originalRecordId := "e", source := .courtreserve,
    courtMappingIds := ["court-3"], courtNumber := some 3, isMultiCourt := false,
    title := "Reservation", category := none, status := .confirmed,
    hasConflict := false, date := "2026-02-21", startTime := "1:00 PM",
    endTime := "2:00 PM", startMinutes := 780, endMinutes := 840,
    durationMinutes := 60, memberName := none, memberEmail := none,
    instructorName := none, guestCount := none, roomIds := [],
    contactName := none, contactEmail := none, eventType := none }

def evA : CalendarEvent := { baseEv with id := "cr-1001" }

def evB : CalendarEvent :=
  { baseEv with
    id := "cr-1002", startTime := "1:30 PM", endTime := "2:30 PM",
    startMinutes := 810, endMinutes := 870 }

def evCancelled : CalendarEvent := { baseEv with id := "cr-1003", status := .cancelled }

def evLead : CalendarEvent :=
  { baseEv with id := "ts-lead-5", source := .tripleseat_lead, status := .prospect }

def evNoCourt : CalendarEvent :=
  { baseEv with id := "cr-1004", courtMappingIds := [], courtNumber := none }

-- ── Claims about the conflict detector ────────────────────────────

/-- Claim C1: for every pair of events in the input of detectConflicts,
both flags are set true exactly when the pair is on the same date, neither
member is a tripleseat_lead or has status prospect, their courtMappingIds
share an id, and the half-open intervals overlap; marking is symmetric and
a failing pair causes no marking (every set flag is caused by some
qualifying partner). -/
theorem detectConflicts_pair_characterization (es : List CalendarEvent) :
    (∀ (i j : Nat) (a b : CalendarEvent),
      i ≠ j → es[i]? = some a → es[j]? = some b → ConflictCond a b →
      (detectConflicts es)[i]? = some { a with hasConflict := true } ∧
      (detectConflicts es)[j]? = some { b with hasConflict := true }) ∧
    (∀ k e, (detectConflicts es)[k]? = some e → e.hasConflict = true →
      ∃ (a : CalendarEvent) (j : Nat) (b : CalendarEvent),
        es[k]? = some a ∧ e = { a with hasConflict := true } ∧
        j ≠ k ∧ es[j]? = some b ∧ ConflictCond a b) := by
  constructor
  · intro i j a b hij hi hj hc
    have hfi : flagB es i = true := (flagB_iff es i).mpr
      ⟨j, fun h => hij h.symm, by rw [hi, hj]; exact (conflictPair_iff a b).mpr hc⟩
    have hfj : flagB es j = true := (flagB_iff es j).mpr
      ⟨i, hij, by rw [hi, hj]; exact (conflictPair_iff b a).mpr hc.symm⟩
    constructor
    · simp [detectConflicts_getElem?, hi, hfi]
    · simp [detectConflicts_getElem?, hj, hfj]
  · intro k e hk hflag
    rw [detectConflicts_getElem?] at hk
    cases ha : es[k]? with
    | none => rw [ha] at hk; simp at hk
    | some a =>
      rw [ha] at hk
      simp only [Option.map_some', Option.some.injEq] at hk
      subst hk
      have hfb : flagB es k = true := hflag
      obtain ⟨j, hjk, hcp⟩ := (flagB_iff es k).mp hfb
      obtain ⟨a2, b, ha2, hb, hab⟩ := cpO_some_left hcp
      rw [ha] at ha2
      injection ha2 with ha2
      subst ha2
      exact ⟨a, j, b, rfl, by rw [hfb], hjk, hb, (conflictPair_iff _ _).mp hab⟩

theorem detectConflicts_pair_characterization_witness :
    (detectConflicts [evA, evB])[0]? = some { evA with hasConflict := true } ∧
    (detectConflicts [evA, evB])[1]? = some { evB with hasConflict := true } :=
  (detectConflicts_pair_characterization [evA, evB]).1 0 1 evA evB
    (by decide) rfl rfl (by decide)

/-- Claim C3 counterexample: a cancelled event overlapping a confirmed one
on the same court and date is marked hasConflict, so cancelled events are
not exempt from conflict detection. -/
theorem cancelled_event_flagged_counterexample :
    evCancelled.status = .cancelled ∧ evB.status = .confirmed ∧
    (detectConflicts [evCancelled, evB]).map (fun e => e.hasConflict) = [true, true] :=
  ⟨rfl, rfl, by decide⟩

/-- Claim C3, amended: the detector exempts exactly tripleseat_lead source
and prospect status (not cancelled status): such events are never marked
and never cause a marking; every marked event is non-lead and
non-prospect and has a non-lead, non-prospect qualifying partner. -/
theorem detectConflicts_excludes_leads_prospects (es : List CalendarEvent) :
    (∀ (k : Nat) (e : CalendarEvent), es[k]? = some e →
      (e.source = .tripleseat_lead ∨ e.status = .prospect) →
      (detectConflicts es)[k]? = some { e with hasConflict := false }) ∧
    (∀ (k : Nat) (e : CalendarEvent),
      (detectConflicts es)[k]? = some e → e.hasConflict = true →
      e.source ≠ .tripleseat_lead ∧ e.status ≠ .prospect ∧
      ∃ (a : CalendarEvent) (j : Nat) (b : CalendarEvent),
        es[k]? = some a ∧ j ≠ k ∧ es[j]? = some b ∧ ConflictCond a b ∧
        b.source ≠ .tripleseat_lead ∧ b.status ≠ .prospect) := by
  constructor
  · intro k e hk hex
    have hfb : flagB es k = false := by
      rcases hfb2 : flagB es k with _ | _
      · rfl
      · exfalso
        obtain ⟨j, hjk, hcp⟩ := (flagB_iff es k).mp hfb2
        obtain ⟨a, b, ha, hb, hab⟩ := cpO_some_left hcp
        rw [hk] at ha
        injection ha with ha
        subst ha
        have hc := (conflictPair_iff _ _).mp hab
        rcases hex with hex | hex
        · exact hc.2.1.1 hex
        · exact hc.2.2.1.1 hex
    simp [detectConflicts_getElem?, hk, hfb]
  · intro k e hk hflag
    rw [detectConflicts_getElem?] at hk
    cases ha : es[k]? with
    | none => rw [ha] at hk; simp at hk
    | some a =>
      rw [ha] at hk
      simp only [Option.map_some', Option.some.injEq] at hk
      subst hk
      have hfb : flagB es k = true := hflag
      obtain ⟨j, hjk, hcp⟩ := (flagB_iff es k).mp hfb
      obtain ⟨a2, b, ha2, hb, hab⟩ := cpO_some_left hcp
      rw [ha] at ha2
      injection ha2 with ha2
      subst ha2
      have hc := (conflictPair_iff _ _).mp hab
      exact ⟨hc.2.1.1, hc.2.2.1.1, a, j, b, rfl, hjk, hb, hc, hc.2.1.2, hc.2.2.1.2⟩

theorem detectConflicts_excludes_leads_prospects_witness :
    (detectConflicts [evLead, evB])[0]? = some { evLead with hasConflict := false } :=
  (detectConflicts_excludes_leads_prospects [evLead, evB]).1 0 evLead rfl (Or.inl rfl)

/-- Claim C10: an event with an empty courtMappingIds list is never marked,
and every marking traces to a pair that shares a court id, so both members
of any marking pair have non-empty court lists (an unassigned event never
causes a flag in either direction). -/
theorem unassigned_event_never_conflicts (es : List CalendarEvent) :
    (∀ (k : Nat) (e : CalendarEvent), es[k]? = some e → e.courtMappingIds = [] →
      (detectConflicts es)[k]? = some { e with hasConflict := false }) ∧
    (∀ (k : Nat) (e : CalendarEvent),
      (detectConflicts es)[k]? = some e → e.hasConflict = true →
      e.courtMappingIds ≠ [] ∧
      ∃ (a : CalendarEvent) (j : Nat) (b : CalendarEvent),
        es[k]? = some a ∧ j ≠ k ∧ es[j]? = some b ∧ ConflictCond a b ∧
        b.courtMappingIds ≠ []) := by
  constructor
  · intro k e hk hempty
    have hfb : flagB es k = false := by
      rcases hfb2 : flagB es k with _ | _
      · rfl
      · exfalso
        obtain ⟨j, hjk, hcp⟩ := (flagB_iff es k).mp hfb2
        obtain ⟨a, b, ha, hb, hab⟩ := cpO_some_left hcp
        rw [hk] at ha
        injection ha with ha
        subst ha
        obtain ⟨c, hc1, hc2⟩ := ((conflictPair_iff _ _).mp hab).2.2.2.1
        rw [hempty] at hc1
        exact List.not_mem_nil c hc1
    simp [detectConflicts_getElem?, hk, hfb]
  · intro k e hk hflag
    rw [detectConflicts_getElem?] at hk
    cases ha : es[k]? with
    | none => rw [ha] at hk; simp at hk
    | some a =>
      rw [ha] at hk
      simp only [Option.map_some', Option.some.injEq] at hk
      subst hk
      have hfb : flagB es k = true := hflag
      obtain ⟨j, hjk, hcp⟩ := (flagB_iff es k).mp hfb
      obtain ⟨a2, b, ha2, hb, hab⟩ := cpO_some_left hcp
      rw [ha] at ha2
      injection ha2 with ha2
      subst ha2
      have hc := (conflictPair_iff _ _).mp hab
      obtain ⟨c, hc1, hc2⟩ := hc.2.2.2.1
      exact ⟨List.ne_nil_of_mem hc1, a, j, b, rfl, hjk, hb, hc, List.ne_nil_of_mem hc2⟩

theorem unassigned_event_never_conflicts_witness :
    (detectConflicts [evNoCourt, evB])[0]? = some { evNoCourt with hasConflict := false } :=
  (unassigned_event_never_conflicts [evNoCourt, evB]).1 0 evNoCourt rfl rfl

/-- Claim C7: detectConflicts preserves length, order and every field
except hasConflict, and its output does not depend on the incoming
hasConflict values (flags are recomputed from scratch). -/
theorem detectConflicts_frame (es : List CalendarEvent) (g : CalendarEvent → Bool) :
    (detectConflicts es).length = es.length ∧
    (detectConflicts es).map clearFlag = es.map clearFlag ∧
    detectConflicts (es.map (fun e => { e with hasConflict := g e })) = detectConflicts es := by
  refine ⟨detectConflicts_length es, ?_, ?_⟩
  · rw [detectConflicts_eq_withFlags, withFlags_map_clearFlag]
  · have h1 : (es.map (fun e => { e with hasConflict := g e })).map clearFlag
        = es.map clearFlag := by
      rw [List.map_map]
      exact List.map_congr_left (fun a _ => rfl)
    unfold detectConflicts
    dsimp only
    rw [h1]

/-- Claim C8: detection is order-independent: permuting the input list
yields the same set of flagged event ids. -/
theorem detectConflicts_perm_flaggedIds (es es2 : List CalendarEvent)
    (hp : es.Perm es2) (idv : String) :
    idv ∈ flaggedIds es ↔ idv ∈ flaggedIds es2 := by
  rw [mem_flaggedIds, mem_flaggedIds]
  constructor
  · rintro ⟨x, hmem, hid, hw⟩
    exact ⟨x, hp.mem_iff.mp hmem, hid, (flagWitness_perm hp x).mp hw⟩
  · rintro ⟨x, hmem, hid, hw⟩
    exact ⟨x, hp.mem_iff.mpr hmem, hid, (flagWitness_perm hp x).mpr hw⟩

theorem detectConflicts_perm_flaggedIds_witness :
    ([evA, evB].Perm [evB, evA]) ∧
    ("cr-1001" ∈ flaggedIds [evA, evB] ↔ "cr-1001" ∈ flaggedIds [evB, evA]) :=
  ⟨List.Perm.swap evB evA [],
    detectConflicts_perm_flaggedIds [evA, evB] [evB, evA] (List.Perm.swap evB evA []) "cr-1001"⟩

-- ── Claim about the pipeline (buildCalendarEvents) ────────────────

/-- The filter acceptance condition as the spec words it: source in the
allowed set, status in the allowed set, and either the allowed court id
set is empty (no restriction) or the event occupies an allowed court. -/
def specFilterPred (f : CalendarFilters) (e : CalendarEvent) : Prop :=
  e.source ∈ f.sources ∧ e.status ∈ f.statuses ∧
  (f.courtIds = [] ∨ ∃ c, c ∈ e.courtMappingIds ∧ c ∈ f.courtIds)

instance (f : CalendarFilters) (e : CalendarEvent) : Decidable (specFilterPred f e) := by
  unfold specFilterPred; infer_instance

theorem codeFilter_eq_spec (f : CalendarFilters) (e : CalendarEvent) :
    (decide (e.source ∈ f.sources) && decide (e.status ∈ f.statuses)
      && (decide (f.courtIds.length = 0)
          || e.courtMappingIds.any (fun c => decide (c ∈ f.courtIds))))
    = decide (specFilterPred f e) := by
  rw [Bool.eq_iff_iff]
  simp [specFilterPred, List.length_eq_zero]
  tauto

/-- Claim C2: buildCalendarEvents is exactly: transform the four raw
collections (discarding the rows mapped to none), concatenate in the fixed
order, detect conflicts on the full concatenation, and then filter by the
supplied configuration (keeping exactly the events allowed by source,
status and court restriction, empty court set meaning no restriction), or
return the conflict-annotated concatenation unchanged when no filter
configuration is supplied. -/
theorem buildCalendarEvents_composition (env : TZEnv)
    (rs : List CRReservation) (evr : List CREvent) (tse : List TSEvent)
    (tsl : List TSLead) (cms : List CourtMapping) :
    buildCalendarEvents env rs evr tse tsl cms none =
      detectConflicts
        (rs.filterMap (fun r => transformCRReservation r cms)
          ++ evr.filterMap (fun e => transformCREvent e cms)
          ++ tse.filterMap (fun e => transformTSEvent env e cms)
          ++ tsl.filterMap (fun l => transformTSLead env l cms)) ∧
    ∀ f : CalendarFilters,
      buildCalendarEvents env rs evr tse tsl cms (some f) =
        (detectConflicts
          (rs.filterMap (fun r => transformCRReservation r cms)
            ++ evr.filterMap (fun e => transformCREvent e cms)
            ++ tse.filterMap (fun e => transformTSEvent env e cms)
            ++ tsl.filterMap (fun l => transformTSLead env l cms))).filter
          (fun e => decide (specFilterPred f e)) := by
  refine ⟨rfl, fun f => ?_⟩
  exact List.filter_congr (fun e _ => codeFilter_eq_spec f e)

-- ── Sample raw rows for concrete instantiations ───────────────────

def rSample : CRReservation :=
  { id := "res-row-1", location_id := "ORL", courtreserve_reservation_id := "1001",
    court_id := none, court_mapping_id := none, category := none, title := none,
    reservation_date := some "2026-02-21", start_time := some "2026-02-21T13:00:00",
    end_time := some "2026-02-21T14:00:00", member_name := none, member_email := none,
    instructor_name := none, status := none }

/-- rSample with identical start and end timestamps. -/
def rZero : CRReservation := { rSample with end_time := some "2026-02-21T13:00:00" }

def eSample : CREvent :=
  { id := "ev-row-1", location_id := "ORL", courtreserve_event_id := 42,
    courtreserve_reservation_id := none, event_name := none, event_category_id := none,
    event_category_name := none, start_datetime := some "2026-02-21T10:00:00",
    end_datetime := some "2026-02-21T11:30:00", court_ids := [], court_mapping_ids := [],
    max_registrants := none, registered_count := none, waitlist_count := none,
    is_canceled := false, is_public := false, public_event_url := none }

def eZero : CREvent := { eSample with end_datetime := some "2026-02-21T10:00:00" }

/-- A reservation row whose external reservation id happens to start with
the characters event- , colliding with a program event id. -/
def rColl : CRReservation :=
  { rSample with
    courtreserve_reservation_id := "event-7-2026-02-21T10:00:00",
    start_time := some "2026-02-21T10:00:00", end_time := some "2026-02-21T11:00:00" }

/-- A program event row with external id 7 starting 2026-02-21T10:00:00. -/
def eColl : CREvent :=
  { eSample with
    courtreserve_event_id := 7,
    start_datetime := some "2026-02-21T10:00:00",
    end_datetime := some "2026-02-21T11:00:00" }

def tsSample : TSEvent :=
  { id := "ts-row-1", location_id := "ORL", tripleseat_event_id := 77,
    event_name := none, event_type := none, status := none, contact_name := none,
    contact_email := none, event_date := some "2026-02-21",
    event_start := some "2026-02-21T15:00:00Z", event_end := some "2026-02-21T17:00:00Z",
    guest_count := none, room_ids := [] }

def tsZero : TSEvent := { tsSample with event_end := some "2026-02-21T15:00:00Z" }

def leadSample : TSLead :=
  { id := "lead-row-1", location_id := "ORL", tripleseat_lead_id := 88,
    lead_name := none, lead_type := none, status := none, contact_name := none,
    desired_date := some "2026-02-21", desired_start := some "2026-02-21T15:00:00Z",
    desired_end := some "2026-02-21T18:00:00Z", guest_count := none, room_ids := [] }

def leadZero : TSLead := { leadSample with desired_end := some "2026-02-21T15:00:00Z" }

/-- A concrete timezone environment: 2026-02-21T15:00:00Z is 10:00 Eastern,
any other instant 12:00 or 13:00 Eastern (enough to exercise the
transformers on the sample rows). -/
def env0 : TZEnv :=
  { hm := fun s =>
      if s = "2026-02-21T15:00:00Z" then (10, 0)
      else if s = "2026-02-21T17:00:00Z" then (12, 0)
      else (13, 0),
    dateStr := fun _ => "2026-02-21" }

-- ── Claim C4: time text format ────────────────────────────────────

/-- The format the spec asserts for CalendarEvent start/end times, written
from the spec text: 24-hour "HH:MM" with a two-digit hour 00-23, a colon
and a two-digit minute 00-59. -/
def specHHMM24 (s : String) : Bool :=
  match s.data with
  | [h1, h2, ':', m1, m2] =>
    h1.isDigit && h2.isDigit && m1.isDigit && m2.isDigit
    && decide (digitsVal [h1, h2] < 24) && decide (digitsVal [m1, m2] < 60)
  | _ => false

/-- Claim C4 (code bug): the transformers emit 12-hour "h:MM AM/PM"
strings, not the 24-hour two-digit "HH:MM" form the spec (and the
comments in the source) assert: a 13:00-14:00 reservation gets
startTime "1:00 PM".  (The minutes fields are consistent: toMinutes
still reads the AM/PM text back as 780.) -/
theorem startTime_not_hhmm24 :
    (transformCRReservation rSample []).map (fun e => (e.startTime, e.endTime))
      = some ("1:00 PM", "2:00 PM") ∧
    specHHMM24 "1:00 PM" = false ∧ specHHMM24 "13:00" = true ∧
    toMinutes "1:00 PM" = 780 :=
  ⟨rfl, rfl, rfl, rfl⟩

-- ── Claim C6: positive duration invariant ─────────────────────────

/-- Claim C6: every event any of the four transformers produces satisfies
endMinutes > startMinutes and durationMinutes = endMinutes - startMinutes,
and whenever the computed end minutes are at or before the computed start
minutes (identical timestamps in particular) the transformer returns
none. -/
theorem transformer_duration_invariant :
    (∀ (r : CRReservation) (cms : List CourtMapping) (e : CalendarEvent),
      transformCRReservation r cms = some e →
      e.endMinutes > e.startMinutes ∧ e.durationMinutes = e.endMinutes - e.startMinutes) ∧
    (∀ (r : CRReservation) (cms : List CourtMapping) (st et : String),
      r.start_time = some st → r.end_time = some et →
      toMinutes (localToHHMM et) ≤ toMinutes (localToHHMM st) →
      transformCRReservation r cms = none) ∧
    (∀ (ev : CREvent) (cms : List CourtMapping) (e : CalendarEvent),
      transformCREvent ev cms = some e →
      e.endMinutes > e.startMinutes ∧ e.durationMinutes = e.endMinutes - e.startMinutes) ∧
    (∀ (ev : CREvent) (cms : List CourtMapping) (sd ed : String),
      ev.start_datetime = some sd → ev.end_datetime = some ed →
      toMinutes (localToHHMM (stripTZ ed)) ≤ toMinutes (localToHHMM (stripTZ sd)) →
      transformCREvent ev cms = none) ∧
    (∀ (env : TZEnv) (te : TSEvent) (cms : List CourtMapping) (e : CalendarEvent),
      transformTSEvent env te cms = some e →
      e.endMinutes > e.startMinutes ∧ e.durationMinutes = e.endMinutes - e.startMinutes) ∧
    (∀ (env : TZEnv) (te : TSEvent) (cms : List CourtMapping) (s0 e0 : String),
      te.event_start = some s0 → te.event_end = some e0 →
      toMinutes (toEasternHHMM env e0) ≤ toMinutes (toEasternHHMM env s0) →
      transformTSEvent env te cms = none) ∧
    (∀ (env : TZEnv) (tl : TSLead) (cms : List CourtMapping) (e : CalendarEvent),
      transformTSLead env tl cms = some e →
      e.endMinutes > e.startMinutes ∧ e.durationMinutes = e.endMinutes - e.startMinutes) ∧
    (∀ (env : TZEnv) (tl : TSLead) (cms : List CourtMapping) (s0 e0 : String),
      tl.desired_start = some s0 → tl.desired_end = some e0 →
      toMinutes (toEasternHHMM env e0) ≤ toMinutes (toEasternHHMM env s0) →
      transformTSLead env tl cms = none) := by
  refine ⟨?_, ?_, ?_, ?_, ?_, ?_, ?_, ?_⟩
  · intro r cms e h
    simp only [transformCRReservation] at h
    split at h
    · split at h
      · exact absurd h (by simp)
      · split at h
        · exact absurd h (by simp)
        · rename_i hguard
          injection h with h
          subst h
          refine ⟨?_, rfl⟩
          dsimp only
          omega
    · exact absurd h (by simp)
  · intro r cms st et hst het hle
    simp only [transformCRReservation, hst, het]
    cases hrd : r.reservation_date with
    | none => rfl
    | some rd =>
      by_cases hemp : st = "" ∨ et = "" ∨ rd = ""
      · simp [hemp]
      · simp [hemp, hle]
  · intro ev cms e h
    simp only [transformCREvent] at h
    split at h
    · split at h
      · exact absurd h (by simp)
      · split at h
        · exact absurd h (by simp)
        · split at h
          · exact absurd h (by simp)
          · rename_i hguard
            injection h with h
            subst h
            refine ⟨?_, rfl⟩
            dsimp only
            omega
    · exact absurd h (by simp)
  · intro ev cms sd ed hsd hed hle
    simp only [transformCREvent, hsd, hed]
    by_cases hemp : sd = "" ∨ ed = ""
    · simp [hemp]
    · cases hc : ev.is_canceled
      · simp [hemp, hc, hle]
      · simp [hemp, hc]
  · intro env te cms e h
    simp only [transformTSEvent] at h
    split at h
    · split at h
      · exact absurd h (by simp)
      · split at h
        · exact absurd h (by simp)
        · rename_i hguard
          injection h with h
          subst h
          refine ⟨?_, rfl⟩
          dsimp only
          omega
    · exact absurd h (by simp)
  · intro env te cms s0 e0 hs he hle
    simp only [transformTSEvent, hs, he]
    by_cases hemp : s0 = "" ∨ e0 = ""
    · simp [hemp]
    · simp [hemp, hle]
  · intro env tl cms e h
    simp only [transformTSLead] at h
    split at h
    · split at h
      · exact absurd h (by simp)
      · split at h
        · exact absurd h (by simp)
        · rename_i hguard
          injection h with h
          subst h
          refine ⟨?_, rfl⟩
          dsimp only
          omega
    · exact absurd h (by simp)
  · intro env tl cms s0 e0 hs he hle
    simp only [transformTSLead, hs, he]
    by_cases hemp : s0 = "" ∨ e0 = ""
    · simp [hemp]
    · simp [hemp, hle]

theorem transformer_duration_invariant_witness :
    ((transformCRReservation rSample []).elim False
      (fun e => e.endMinutes > e.startMinutes ∧
        e.durationMinutes = e.endMinutes - e.startMinutes)) ∧
    transformCRReservation rZero [] = none ∧
    ((transformCREvent eSample []).elim False
      (fun e => e.endMinutes > e.startMinutes ∧
        e.durationMinutes = e.endMinutes - e.startMinutes)) ∧
    transformCREvent eZero [] = none ∧
    ((transformTSEvent env0 tsSample []).elim False
      (fun e => e.endMinutes > e.startMinutes ∧
        e.durationMinutes = e.endMinutes - e.startMinutes)) ∧
    transformTSEvent env0 tsZero [] = none ∧
    ((transformTSLead env0 leadSample []).elim False
      (fun e => e.endMinutes > e.startMinutes ∧
        e.durationMinutes = e.endMinutes - e.startMinutes)) ∧
    transformTSLead env0 leadZero [] = none := by
  refine ⟨?_, ?_, ?_, ?_, ?_, ?_, ?_, ?_⟩
  · cases h : transformCRReservation rSample [] with
    | none => exact absurd h (by decide)
    | some e => exact transformer_duration_invariant.1 rSample [] e h
  · exact transformer_duration_invariant.2.1 rZero []
      "2026-02-21T13:00:00" "2026-02-21T13:00:00" rfl rfl (Nat.le_refl _)
  · cases h : transformCREvent eSample [] with
    | none => exact absurd h (by decide)
    | some e => exact transformer_duration_invariant.2.2.1 eSample [] e h
  · exact transformer_duration_invariant.2.2.2.1 eZero []
      "2026-02-21T10:00:00" "2026-02-21T10:00:00" rfl rfl (Nat.le_refl _)
  · cases h : transformTSEvent env0 tsSample [] with
    | none => exact absurd h (by decide)
    | some e => exact transformer_duration_invariant.2.2.2.2.1 env0 tsSample [] e h
  · exact transformer_duration_invariant.2.2.2.2.2.1 env0 tsZero []
      "2026-02-21T15:00:00Z" "2026-02-21T15:00:00Z" rfl rfl (Nat.le_refl _)
  · cases h : transformTSLead env0 leadSample [] with
    | none => exact absurd h (by decide)
    | some e => exact transformer_duration_invariant.2.2.2.2.2.2.1 env0 leadSample [] e h
  · exact transformer_duration_invariant.2.2.2.2.2.2.2 env0 leadZero []
      "2026-02-21T15:00:00Z" "2026-02-21T15:00:00Z" rfl rfl (Nat.le_refl _)

-- ── Claim C5: composite id shapes ─────────────────────────────────

theorem transformCRReservation_id_data (r : CRReservation) (cms : List CourtMapping)
    (e : CalendarEvent) (h : transformCRReservation r cms = some e) :
    e.id.data = 'c' :: 'r' :: '-' :: r.courtreserve_reservation_id.data := by
  simp only [transformCRReservation] at h
  split at h
  · split at h
    · exact absurd h (by simp)
    · split at h
      · exact absurd h (by simp)
      · injection h with h
        subst h
        dsimp only
        simp [String.data_append]
  · exact absurd h (by simp)

theorem transformCREvent_id_data (ev : CREvent) (cms : List CourtMapping)
    (e : CalendarEvent) (h : transformCREvent ev cms = some e) :
    ∃ s : List Char,
      e.id.data = 'c' :: 'r' :: '-' :: 'e' :: 'v' :: 'e' :: 'n' :: 't' :: '-' :: s := by
  simp only [transformCREvent] at h
  split at h
  · split at h
    · exact absurd h (by simp)
    · split at h
      · exact absurd h (by simp)
      · split at h
        · exact absurd h (by simp)
        · injection h with h
          subst h
          dsimp only
          exact ⟨_, rfl⟩
  · exact absurd h (by simp)

theorem transformTSEvent_id_data (env : TZEnv) (te : TSEvent) (cms : List CourtMapping)
    (e : CalendarEvent) (h : transformTSEvent env te cms = some e) :
    ∃ s : List Char,
      e.id.data = 't' :: 's' :: '-' :: 'e' :: 'v' :: 'e' :: 'n' :: 't' :: '-' :: s := by
  simp only [transformTSEvent] at h
  split at h
  · split at h
    · exact absurd h (by simp)
    · split at h
      · exact absurd h (by simp)
      · injection h with h
        subst h
        dsimp only
        exact ⟨_, rfl⟩
  · exact absurd h (by simp)

theorem transformTSLead_id_data (env : TZEnv) (tl : TSLead) (cms : List CourtMapping)
    (e : CalendarEvent) (h : transformTSLead env tl cms = some e) :
    ∃ s : List Char,
      e.id.data = 't' :: 's' :: '-' :: 'l' :: 'e' :: 'a' :: 'd' :: '-' :: s := by
  simp only [transformTSLead] at h
  split at h
  · split at h
    · exact absurd h (by simp)
    · split at h
      · exact absurd h (by simp)
      · injection h with h
        subst h
        dsimp only
        exact ⟨_, rfl⟩
  · exact absurd h (by simp)

/-- Claim C5 counterexample: composite ids can collide across sources: a
reservation whose external reservation id string itself starts with
event- produces the same id as a program event row.  Both rows are
accepted by their transformers and both produce the id
cr-event-7-2026-02-21T10:00:00. -/
theorem cross_source_id_collision_counterexample :
    (transformCRReservation rColl []).map (fun e => e.id)
      = some "cr-event-7-2026-02-21T10:00:00" ∧
    (transformCREvent eColl []).map (fun e => e.id)
      = some "cr-event-7-2026-02-21T10:00:00" :=
  ⟨rfl, rfl⟩

/-- Claim C5, amended: events produced by different source transformers
always have distinct ids, except that a reservation id can collide with a
program event id when the reservation's external id string itself begins
with the six characters event- ; under that one proviso all six
cross-source pairs are id-disjoint, for all field values. -/
theorem cross_source_id_disjoint :
    (∀ (r : CRReservation) (ev : CREvent) (cms cms2 : List CourtMapping)
       (e1 e2 : CalendarEvent),
      transformCRReservation r cms = some e1 → transformCREvent ev cms2 = some e2 →
      r.courtreserve_reservation_id.data.take 6 ≠ ['e', 'v', 'e', 'n', 't', '-'] →
      e1.id ≠ e2.id) ∧
    (∀ (r : CRReservation) (env : TZEnv) (te : TSEvent) (cms cms2 : List CourtMapping)
       (e1 e2 : CalendarEvent),
      transformCRReservation r cms = some e1 → transformTSEvent env te cms2 = some e2 →
      e1.id ≠ e2.id) ∧
    (∀ (r : CRReservation) (env : TZEnv) (tl : TSLead) (cms cms2 : List CourtMapping)
       (e1 e2 : CalendarEvent),
      transformCRReservation r cms = some e1 → transformTSLead env tl cms2 = some e2 →
      e1.id ≠ e2.id) ∧
    (∀ (ev : CREvent) (env : TZEnv) (te : TSEvent) (cms cms2 : List CourtMapping)
       (e1 e2 : CalendarEvent),
      transformCREvent ev cms = some e1 → transformTSEvent env te cms2 = some e2 →
      e1.id ≠ e2.id) ∧
    (∀ (ev : CREvent) (env : TZEnv) (tl : TSLead) (cms cms2 : List CourtMapping)
       (e1 e2 : CalendarEvent),
      transformCREvent ev cms = some e1 → transformTSLead env tl cms2 = some e2 →
      e1.id ≠ e2.id) ∧
    (∀ (env env2 : TZEnv) (te : TSEvent) (tl : TSLead) (cms cms2 : List CourtMapping)
       (e1 e2 : CalendarEvent),
      transformTSEvent env te cms = some e1 → transformTSLead env2 tl cms2 = some e2 →
      e1.id ≠ e2.id) := by
  refine ⟨?_, ?_, ?_, ?_, ?_, ?_⟩
  · intro r ev cms cms2 e1 e2 h1 h2 htake heq
    have hs1 := transformCRReservation_id_data r cms e1 h1
    obtain ⟨s, hs2⟩ := transformCREvent_id_data ev cms2 e2 h2
    have hd := congrArg String.data heq
    rw [hs1, hs2] at hd
    injection hd with hc hd
    injection hd with hc hd
    injection hd with hc hd
    apply htake
    rw [hd]
    rfl
  · intro r env te cms cms2 e1 e2 h1 h2 heq
    have hs1 := transformCRReservation_id_data r cms e1 h1
    obtain ⟨s, hs2⟩ := transformTSEvent_id_data env te cms2 e2 h2
    have hd := congrArg String.data heq
    rw [hs1, hs2] at hd
    injection hd with hc hd
    exact absurd hc (by decide)
  · intro r env tl cms cms2 e1 e2 h1 h2 heq
    have hs1 := transformCRReservation_id_data r cms e1 h1
    obtain ⟨s, hs2⟩ := transformTSLead_id_data env tl cms2 e2 h2
    have hd := congrArg String.data heq
    rw [hs1, hs2] at hd
    injection hd with hc hd
    exact absurd hc (by decide)
  · intro ev env te cms cms2 e1 e2 h1 h2 heq
    obtain ⟨s1, hs1⟩ := transformCREvent_id_data ev cms e1 h1
    obtain ⟨s2, hs2⟩ := transformTSEvent_id_data env te cms2 e2 h2
    have hd := congrArg String.data heq
    rw [hs1, hs2] at hd
    injection hd with hc hd
    exact absurd hc (by decide)
  · intro ev env tl cms cms2 e1 e2 h1 h2 heq
    obtain ⟨s1, hs1⟩ := transformCREvent_id_data ev cms e1 h1
    obtain ⟨s2, hs2⟩ := transformTSLead_id_data env tl cms2 e2 h2
    have hd := congrArg String.data heq
    rw [hs1, hs2] at hd
    injection hd with hc hd
    exact absurd hc (by decide)
  · intro env env2 te tl cms cms2 e1 e2 h1 h2 heq
    obtain ⟨s1, hs1⟩ := transformTSEvent_id_data env te cms e1 h1
    obtain ⟨s2, hs2⟩ := transformTSLead_id_data env2 tl cms2 e2 h2
    have hd := congrArg String.data heq
    rw [hs1, hs2] at hd
    injection hd with hc hd
    injection hd with hc hd
    injection hd with hc hd
    injection hd with hc hd
    exact absurd hc (by decide)

theorem cross_source_id_disjoint_witness :
    (transformCRReservation rSample []).elim False (fun e1 =>
      (transformCREvent eColl []).elim False (fun e2 => e1.id ≠ e2.id)) := by
  cases h1 : transformCRReservation rSample [] with
  | none => exact absurd h1 (by decide)
  | some e1 =>
    cases h2 : transformCREvent eColl [] with
    | none => exact absurd h2 (by decide)
    | some e2 =>
      exact cross_source_id_disjoint.1 rSample eColl [] [] e1 e2 h1 h2 (by decide)

-- ── Claim C9: time format round trip ──────────────────────────────

/-- A canonical local datetime string whose clock digits are h:m
(two-digit zero-padded fields, the shape CourtReserve rows carry). -/
def mkLocalDT (h m : Nat) : String :=
  "2026-02-21T" ++ pad2 h ++ ":" ++ pad2 m ++ ":00"

/-- The 24-hour "HH:MM" string for h:m. -/
def hhmm24 (h m : Nat) : String := pad2 h ++ ":" ++ pad2 m

/-- Claim C9: for every hour below 24 and minute below 60, toMinutes of
the 12-hour AM/PM text localToHHMM extracts from a datetime string with
those clock digits is exactly 60*h + m (12 AM mapping to hour 0 and 12 PM
to hour 12), and toMinutes of the 24-hour "HH:MM" string for the same
clock digits gives the same value. -/
theorem toMinutes_localToHHMM_roundtrip (h m : Nat) (hh : h < 24) (hm : m < 60) :
    toMinutes (localToHHMM (mkLocalDT h m)) = 60 * h + m ∧
    toMinutes (hhmm24 h m) = 60 * h + m := by
  have H : ∀ a < 24, ∀ b < 60,
      toMinutes (localToHHMM (mkLocalDT a b)) = 60 * a + b ∧
      toMinutes (hhmm24 a b) = 60 * a + b := by decide
  exact H h hh m hm

theorem toMinutes_localToHHMM_roundtrip_witness :
    (toMinutes (localToHHMM (mkLocalDT 13 30)) = 810 ∧ toMinutes (hhmm24 13 30) = 810) ∧
    (toMinutes (localToHHMM (mkLocalDT 0 5)) = 5 ∧ toMinutes (hhmm24 0 5) = 5) ∧
    (toMinutes (localToHHMM (mkLocalDT 12 0)) = 720 ∧ toMinutes (hhmm24 12 0) = 720) :=
  ⟨toMinutes_localToHHMM_roundtrip 13 30 (by decide) (by decide),
   toMinutes_localToHHMM_roundtrip 0 5 (by decide) (by decide),
   toMinutes_localToHHMM_roundtrip 12 0 (by decide) (by decide)⟩
